import Mathlib

/-!
Verification of the MediScreen medical-diagnosis repository.

The repository ships a React frontend (under frontend/src), documentation and
an offline ML pipeline; the FastAPI backend (backend/app) that implements the
inference engine, the what-if comparison engine and the model registry is not
part of the sources available here, so those components are modelled from the
specification (each such definition carries a doc comment starting with
"Modelled from the spec:").  The frontend local-history hook and the submit
path are embedded directly from the frontend/src sources.

Probabilities are modelled as rationals.  To keep every definition evaluable
by the kernel, subtraction and absolute value are expressed through mkRat
(the library operations on Rat are irreducible); qsub and qabs below are
proved equal to the library subtraction and absolute value, so all theorems
are stated in the usual arithmetic vocabulary.
-/

namespace MediScreen

/-- Kernel-computable subtraction on rationals, via the smart constructor. -/
def qsub (a b : ℚ) : ℚ := mkRat (a.num * b.den - b.num * a.den) (a.den * b.den)

/-- Kernel-computable absolute value on rationals. -/
def qabs (a : ℚ) : ℚ := if a.num < 0 then mkRat (-a.num) a.den else a

theorem qsub_eq (a b : ℚ) : qsub a b = a - b := by
  have ha : ((a.den : ℚ)) ≠ 0 := Nat.cast_ne_zero.mpr (Rat.den_ne_zero a)
  have hb : ((b.den : ℚ)) ≠ 0 := Nat.cast_ne_zero.mpr (Rat.den_ne_zero b)
  have h1 : (a.num : ℚ) = a * a.den := (div_eq_iff ha).mp (Rat.num_div_den a)
  have h2 : (b.num : ℚ) = b * b.den := (div_eq_iff hb).mp (Rat.num_div_den b)
  unfold qsub
  rw [Rat.mkRat_eq_divInt, Rat.divInt_eq_div]
  push_cast
  rw [h1, h2, div_eq_iff (mul_ne_zero ha hb)]
  ring

theorem qabs_eq (a : ℚ) : qabs a = |a| := by
  unfold qabs
  split_ifs with h
  · have ha : a < 0 := by
      by_contra hc
      push_neg at hc
      exact absurd (Rat.num_nonneg.mpr hc) (not_le.mpr h)
    rw [abs_of_neg ha, Rat.mkRat_eq_divInt, Rat.divInt_eq_div]
    push_cast
    rw [neg_div, Rat.num_div_den]
  · have ha : 0 ≤ a := Rat.num_nonneg.mp (not_lt.mp h)
    rw [abs_of_nonneg ha]

/-- Confidence levels attached to a prediction (spec section 3,
PredictionResult). -/
inductive ConfLevel where
  | LOW
  | MEDIUM
  | HIGH
deriving DecidableEq, Repr, Inhabited

/-- Modelled from the spec: the backend inference engine
(backend/app/ml/inference.py) is absent from the sources.  Confidence level is
derived from the distance of the probability from 0.5: LOW if within 0.1 of
0.5, HIGH if at least 0.3 away from 0.5 (boundary inclusive, per section 8),
MEDIUM otherwise. -/
def confidenceLevel (p : ℚ) : ConfLevel :=
  if qabs (qsub p (mkRat 1 2)) ≤ mkRat 1 10 then .LOW
  else if mkRat 3 10 ≤ qabs (qsub p (mkRat 1 2)) then .HIGH
  else .MEDIUM

theorem distHalf_eq (p : ℚ) : qabs (qsub p (mkRat 1 2)) = |p - 1/2| := by
  rw [qabs_eq, qsub_eq, Rat.mkRat_eq_divInt, Rat.divInt_eq_div]
  norm_num

theorem mkRat_tenth : (mkRat 1 10 : ℚ) = 1/10 := by
  rw [Rat.mkRat_eq_divInt, Rat.divInt_eq_div]
  norm_num

theorem mkRat_three_tenths : (mkRat 3 10 : ℚ) = 3/10 := by
  rw [Rat.mkRat_eq_divInt, Rat.divInt_eq_div]
  norm_num

theorem mkRat_half : (mkRat 1 2 : ℚ) = 1/2 := by
  rw [Rat.mkRat_eq_divInt, Rat.divInt_eq_div]
  norm_num

/-- A feature vector: a mapping from feature name to numeric value (spec
section 3), represented as an association list. -/
abbrev FeatureVector := List (String × ℚ)

/-- Look up the value of a named feature in a feature vector. -/
def getFeature (fv : FeatureVector) (name : String) : Option ℚ :=
  (fv.find? (fun kv => kv.1 == name)).map (fun kv => kv.2)

/-- A declared feature in bundle metadata: name, human label, optional
numeric bounds (spec sections 3 and 4.3). -/
structure FeatureDecl where
  name : String
  label : String
  bounds : Option (ℚ × ℚ) := none
deriving DecidableEq, Repr

/-- Bundle metadata: ordered list of expected features plus calibration flag
(spec section 3, ArtifactBundle). -/
structure BundleMeta where
  features : List FeatureDecl
  calibrated : Bool := true
deriving DecidableEq, Repr

/-- Modelled from the spec: an artifact bundle (spec section 3) with an opaque
scorer and explainer and a bundle-level decision threshold defaulting to 0.5
(spec section 4.3). -/
structure ArtifactBundle where
  domain : String
  version : String
  meta : BundleMeta
  scorer : FeatureVector → ℚ
  explainer : FeatureVector → List (String × ℚ)
  threshold : ℚ := mkRat 1 2
  topK : Nat := 5

/-- Input-validation errors of the inference engine (spec section 7). -/
inductive ScoreError where
  | schemaMismatch
  | rangeViolation
deriving DecidableEq, Repr

/-- The result of one inference (spec section 3, PredictionResult). -/
structure PredictionResult where
  prediction : Nat
  probability : ℚ
  confidence_level : ConfLevel
  top_factors : List (String × ℚ × Bool)
deriving DecidableEq, Repr, Inhabited

/-- First declared feature missing from the given vector, if any. -/
def missingFeature (meta : BundleMeta) (fv : FeatureVector) : Option FeatureDecl :=
  meta.features.find? (fun d => (getFeature fv d.name).isNone)

/-- Whether the vector violates the declared bounds of one feature. -/
def boundViolated (fv : FeatureVector) (d : FeatureDecl) : Bool :=
  match d.bounds, getFeature fv d.name with
  | some (lo, hi), some v => decide (v < lo) || decide (hi < v)
  | _, _ => false

/-- Modelled from the spec: input validation of the inference engine (spec
section 4.3) — SchemaMismatch if a required feature is missing, RangeViolation
if a declared numeric bound is violated. -/
def validate (meta : BundleMeta) (fv : FeatureVector) : Option ScoreError :=
  match missingFeature meta fv with
  | some _ => some .schemaMismatch
  | none =>
    match meta.features.find? (boundViolated fv) with
    | some _ => some .rangeViolation
    | none => none

/-- Stable insertion (descending by absolute contribution) for attributions. -/
def insertByAbs (x : String × ℚ) : List (String × ℚ) → List (String × ℚ)
  | [] => [x]
  | y :: ys => if qabs y.2 < qabs x.2 then x :: y :: ys else y :: insertByAbs x ys

/-- Stable sort, descending by absolute contribution (ties keep the
explainer's original order, per spec section 4.3). -/
def sortByAbsDesc : List (String × ℚ) → List (String × ℚ)
  | [] => []
  | x :: xs => insertByAbs x (sortByAbsDesc xs)

/-- Top-K attributions by absolute magnitude with a direction flag. -/
def topFactors (b : ArtifactBundle) (fv : FeatureVector) : List (String × ℚ × Bool) :=
  ((sortByAbsDesc (b.explainer fv)).take b.topK).map (fun fc => (fc.1, fc.2, decide (0 < fc.2)))

/-- Modelled from the spec: the inference engine contract
score(bundle, featureVector) -> PredictionResult (spec section 4.3).  The
scorer is only consulted after validation succeeds. -/
def score (b : ArtifactBundle) (fv : FeatureVector) : Except ScoreError PredictionResult :=
  match validate b.meta fv with
  | some e => .error e
  | none =>
    .ok { prediction := if b.threshold ≤ b.scorer fv then 1 else 0
          probability := b.scorer fv
          confidence_level := confidenceLevel (b.scorer fv)
          top_factors := topFactors b fv }

/-- Modelled from the spec: scoring as seen by a caller holding ambient state
of any type.  Spec section 4.3 stipulates that score has no side effects, so
the ambient state passes through untouched. -/
def scoreCall {σ : Type} (b : ArtifactBundle) (fv : FeatureVector) (s : σ) :
    Except ScoreError PredictionResult × σ :=
  (score b fv, s)

/-- Errors of the comparison engine (spec sections 4.4 and 7). -/
inductive CompareError where
  | noChange
  | scoreFailed (e : ScoreError)
deriving DecidableEq, Repr

/-- The result of a what-if comparison (spec section 3, ComparisonResult). -/
structure ComparisonResult where
  original : PredictionResult
  modified : PredictionResult
  probability_change : ℚ
  key_changes : List String
deriving DecidableEq, Repr, Inhabited

/-- Whether one declared feature differs between the two vectors. -/
def featureChanged (orig modif : FeatureVector) (d : FeatureDecl) : Bool :=
  decide (getFeature orig d.name ≠ getFeature modif d.name)

/-- Declared features on which the two vectors differ, in declaration order. -/
def changedFeatures (meta : BundleMeta) (orig modif : FeatureVector) : List FeatureDecl :=
  meta.features.filter (featureChanged orig modif)

/-- Render an optional feature value for a change description. -/
def showOptVal : Option ℚ → String
  | some v => toString v
  | none => "missing"

/-- Human-readable description of one changed feature, old value to new. -/
def describeChange (orig modif : FeatureVector) (d : FeatureDecl) : String :=
  d.label ++ ": " ++ showOptVal (getFeature orig d.name) ++ " -> "
    ++ showOptVal (getFeature modif d.name)

/-- Modelled from the spec: the comparison engine contract
compare(bundle, original, modified) -> ComparisonResult (spec section 4.4):
fails with NoChangeError when no declared feature differs, otherwise scores
both vectors through the inference engine and reports the signed probability
delta and one change description per differing feature. -/
def compare (b : ArtifactBundle) (orig modif : FeatureVector) :
    Except CompareError ComparisonResult :=
  if changedFeatures b.meta orig modif = [] then .error .noChange
  else
    match score b orig, score b modif with
    | .ok r1, .ok r2 =>
        .ok { original := r1
              modified := r2
              probability_change := qsub r2.probability r1.probability
              key_changes := (changedFeatures b.meta orig modif).map (describeChange orig modif) }
    | .error e, _ => .error (.scoreFailed e)
    | .ok _, .error e => .error (.scoreFailed e)

/-!
Frontend embedding.  The following definitions are translated from
frontend/src/hooks/useLocalHistory.js (shipped inside the KidneyPredictor.jsx
source bundle) and from the submit path of
frontend/src/pages/DiabetesPredictor.jsx.
-/

/-- Storage key of the local history (useLocalHistory source). -/
def STORAGE_KEY : String := "mediscreen_history"

/-- Cap on the number of stored history entries (useLocalHistory source). -/
def MAX_HISTORY : Nat := 50

/-- One history entry, as built by addToHistory in useLocalHistory: clock
value, timestamp, disease, submitted inputs and the prediction fields copied
from the response. -/
structure HistoryEntry where
  id : Nat
  timestamp : String
  disease : String
  inputs : List (String × ℚ)
  prediction : Nat
  probability : ℚ
  confidenceLevel : String
deriving DecidableEq, Repr

/-- Browser localStorage, modelled as a keyed map whose values are the parsed
history lists (the JSON serialisation layer is elided). -/
abbrev LocalStorage := List (String × List HistoryEntry)

/-- localStorage.setItem: replaces the binding of one key. -/
def setItem (st : LocalStorage) (k : String) (v : List HistoryEntry) : LocalStorage :=
  (k, v) :: st.filter (fun kv => kv.1 != k)

/-- localStorage.getItem. -/
def getItem (st : LocalStorage) (k : String) : Option (List HistoryEntry) :=
  (st.find? (fun kv => kv.1 == k)).map (fun kv => kv.2)

/-- React state of the useLocalHistory hook plus the backing localStorage. -/
structure HistoryState where
  history : List HistoryEntry
  storage : LocalStorage
deriving DecidableEq, Repr

/-- The entry record literal built inside addToHistory (useLocalHistory
source); Date.now() and the ISO timestamp are passed in as parameters. -/
def mkEntry (now : Nat) (ts : String) (disease : String) (inputs : List (String × ℚ))
    (prediction : Nat) (probability : ℚ) (confLevel : String) : HistoryEntry :=
  { id := now, timestamp := ts, disease := disease, inputs := inputs,
    prediction := prediction, probability := probability, confidenceLevel := confLevel }

/-- saveHistory from useLocalHistory: setHistory plus localStorage.setItem
under STORAGE_KEY. -/
def saveHistory (st : HistoryState) (newHistory : List HistoryEntry) : HistoryState :=
  { history := newHistory, storage := setItem st.storage STORAGE_KEY newHistory }

/-- addToHistory from useLocalHistory: prepend the new entry, truncate to
MAX_HISTORY, save, and return the entry. -/
def addToHistory (st : HistoryState) (now : Nat) (ts : String) (disease : String)
    (inputs : List (String × ℚ)) (prediction : Nat) (probability : ℚ)
    (confLevel : String) : HistoryEntry × HistoryState :=
  let entry := mkEntry now ts disease inputs prediction probability confLevel
  let newHistory := (entry :: st.history).take MAX_HISTORY
  (entry, saveHistory st newHistory)

/-- The prediction fields of the backend response that addToHistory copies
(result.result.prediction, .probability, .confidence_level). -/
structure PredictResponse where
  prediction : Nat
  probability : ℚ
  confidence_level : String
deriving DecidableEq, Repr

/-- The success branch of handleSubmit in DiabetesPredictor.jsx: after the
API call resolves, addToHistory stores the submitted payload together with
the prediction response. -/
def handleSubmitSuccess (st : HistoryState) (now : Nat) (ts : String)
    (payload : List (String × ℚ)) (resp : PredictResponse) : HistoryState :=
  (addToHistory st now ts "diabetes" payload resp.prediction resp.probability
    resp.confidence_level).2

/-!
Registry model.  Modelled from the spec: the registry/cache
(backend/app/ml/registry.py) is absent from the sources; sections 4.2 and 5
describe per-key single-flight loading for getBundle.  The model below is an
interleaving semantics: a fixed set of concurrent callers, each targeting one
(domain, version) key, steps through the getBundle protocol; loads is an
instrumentation counter recording how many times the underlying Artifact
Store load ran for each key.
-/

/-- Cache key of the registry: (domain, version). -/
abbrev RegKey := String × String

/-- Load state of a registry entry (spec section 3, RegistryEntry; the FAILED
branch is not modelled since the claims concern the successful load path). -/
inductive EState where
  | unloaded
  | loading
  | ready
deriving DecidableEq, Repr

/-- Progress of one concurrent getBundle caller. -/
inductive Phase where
  | start
  | waiting
  | owner
  | done
deriving DecidableEq, Repr

/-- Global state of the registry together with the callers. -/
structure RegSys (n : Nat) where
  est : RegKey → EState
  loads : RegKey → Nat
  phase : Fin n → Phase

/-- Modelled from the spec: one interleaving step of getBundle by caller i
(spec section 4.2).  A caller at start returns immediately on a READY entry,
claims an UNLOADED entry (running the underlying load exactly then, which the
counter records), or joins the wait set of a LOADING entry; a waiter resumes
once the entry is READY; the owner completes the load, making the entry
READY. -/
def Step {n : Nat} (keys : Fin n → RegKey) (i : Fin n) (s t : RegSys n) : Prop :=
  (s.phase i = .start ∧ s.est (keys i) = .ready ∧
    t = { s with phase := Function.update s.phase i .done }) ∨
  (s.phase i = .start ∧ s.est (keys i) = .unloaded ∧
    t = { est := Function.update s.est (keys i) .loading,
          loads := Function.update s.loads (keys i) (s.loads (keys i) + 1),
          phase := Function.update s.phase i .owner }) ∨
  (s.phase i = .start ∧ s.est (keys i) = .loading ∧
    t = { s with phase := Function.update s.phase i .waiting }) ∨
  (s.phase i = .waiting ∧ s.est (keys i) = .ready ∧
    t = { s with phase := Function.update s.phase i .done }) ∨
  (s.phase i = .owner ∧
    t = { est := Function.update s.est (keys i) .ready,
          loads := s.loads,
          phase := Function.update s.phase i .done })

/-- Interleaved executions: any number of steps by any callers. -/
inductive Reach {n : Nat} (keys : Fin n → RegKey) : RegSys n → RegSys n → Prop where
  | refl (s : RegSys n) : Reach keys s s
  | tail {s t u : RegSys n} {i : Fin n} : Reach keys s t → Step keys i t u → Reach keys s u

/-- The initial state: every key uncached, no loads run, every caller about
to invoke getBundle. -/
def RegInit {n : Nat} (s : RegSys n) : Prop :=
  (∀ k, s.est k = .unloaded) ∧ (∀ k, s.loads k = 0) ∧ (∀ i, s.phase i = .start)

/-- Inductive invariant of the registry protocol. -/
def RegInv {n : Nat} (keys : Fin n → RegKey) (s : RegSys n) : Prop :=
  (∀ k, s.est k = .unloaded → s.loads k = 0) ∧
  (∀ k, s.est k ≠ .unloaded → s.loads k = 1) ∧
  (∀ i, s.phase i = .owner → s.est (keys i) = .loading) ∧
  (∀ i, s.phase i = .done → s.est (keys i) = .ready) ∧
  (∀ i j, s.phase i = .owner → s.phase j = .owner → keys i = keys j → i = j)

theorem regInit_inv {n : Nat} (keys : Fin n → RegKey) (s : RegSys n) (h : RegInit s) :
    RegInv keys s := by
  obtain ⟨he, hl, hp⟩ := h
  refine ⟨fun k _ => hl k, fun k hk => absurd (he k) hk,
    fun i hi => ?_, fun i hi => ?_, fun i j hi hj hk => ?_⟩
  · rw [hp i] at hi; exact nomatch hi
  · rw [hp i] at hi; exact nomatch hi
  · rw [hp i] at hi; exact nomatch hi

theorem step_inv {n : Nat} {keys : Fin n → RegKey} {i : Fin n} {s t : RegSys n}
    (hstep : Step keys i s t) (hinv : RegInv keys s) : RegInv keys t := by
  obtain ⟨h1, h2, h3, h4, h5⟩ := hinv
  rcases hstep with ⟨hp, hr, ht⟩ | ⟨hp, hr, ht⟩ | ⟨hp, hr, ht⟩ | ⟨hp, hr, ht⟩ | ⟨hp, ht⟩ <;>
    subst ht <;> unfold RegInv <;> dsimp only
  · refine ⟨h1, h2, fun j hj => ?_, fun j hj => ?_, fun j l hj hl hk => ?_⟩
    · by_cases hij : j = i
      · subst hij; rw [Function.update_same] at hj; exact nomatch hj
      · rw [Function.update_noteq hij] at hj; exact h3 j hj
    · by_cases hij : j = i
      · subst hij; exact hr
      · rw [Function.update_noteq hij] at hj; exact h4 j hj
    · by_cases hij : j = i
      · subst hij; rw [Function.update_same] at hj; exact nomatch hj
      · by_cases hil : l = i
        · subst hil; rw [Function.update_same] at hl; exact nomatch hl
        · rw [Function.update_noteq hij] at hj
          rw [Function.update_noteq hil] at hl
          exact h5 j l hj hl hk
  · refine ⟨fun k hk => ?_, fun k hk => ?_, fun j hj => ?_, fun j hj => ?_,
      fun j l hj hl hk => ?_⟩
    · by_cases hki : k = keys i
      · subst hki; rw [Function.update_same] at hk; exact nomatch hk
      · rw [Function.update_noteq hki] at hk
        rw [Function.update_noteq hki]
        exact h1 k hk
    · by_cases hki : k = keys i
      · subst hki
        rw [Function.update_same, h1 (keys i) hr]
      · rw [Function.update_noteq hki] at hk
        rw [Function.update_noteq hki]
        exact h2 k hk
    · by_cases hij : j = i
      · subst hij; rw [Function.update_same]
      · rw [Function.update_noteq hij] at hj
        have hjl := h3 j hj
        by_cases hkj : keys j = keys i
        · rw [hkj, Function.update_same]
        · rw [Function.update_noteq hkj]; exact hjl
    · by_cases hij : j = i
      · subst hij; rw [Function.update_same] at hj; exact nomatch hj
      · rw [Function.update_noteq hij] at hj
        have hjr := h4 j hj
        by_cases hkj : keys j = keys i
        · rw [hkj] at hjr; exact nomatch (hjr.symm.trans hr)
        · rw [Function.update_noteq hkj]; exact hjr
    · by_cases hij : j = i
      · subst hij
        by_cases hil : l = j
        · subst hil; rfl
        · rw [Function.update_noteq hil] at hl
          have hll := h3 l hl
          rw [← hk] at hll
          exact nomatch (hll.symm.trans hr)
      · by_cases hil : l = i
        · subst hil
          rw [Function.update_noteq hij] at hj
          have hjj := h3 j hj
          rw [hk] at hjj
          exact nomatch (hjj.symm.trans hr)
        · rw [Function.update_noteq hij] at hj
          rw [Function.update_noteq hil] at hl
          exact h5 j l hj hl hk
  · refine ⟨h1, h2, fun j hj => ?_, fun j hj => ?_, fun j l hj hl hk => ?_⟩
    · by_cases hij : j = i
      · subst hij; rw [Function.update_same] at hj; exact nomatch hj
      · rw [Function.update_noteq hij] at hj; exact h3 j hj
    · by_cases hij : j = i
      · subst hij; rw [Function.update_same] at hj; exact nomatch hj
      · rw [Function.update_noteq hij] at hj; exact h4 j hj
    · by_cases hij : j = i
      · subst hij; rw [Function.update_same] at hj; exact nomatch hj
      · by_cases hil : l = i
        · subst hil; rw [Function.update_same] at hl; exact nomatch hl
        · rw [Function.update_noteq hij] at hj
          rw [Function.update_noteq hil] at hl
          exact h5 j l hj hl hk
  · refine ⟨h1, h2, fun j hj => ?_, fun j hj => ?_, fun j l hj hl hk => ?_⟩
    · by_cases hij : j = i
      · subst hij; rw [Function.update_same] at hj; exact nomatch hj
      · rw [Function.update_noteq hij] at hj; exact h3 j hj
    · by_cases hij : j = i
      · subst hij; exact hr
      · rw [Function.update_noteq hij] at hj; exact h4 j hj
    · by_cases hij : j = i
      · subst hij; rw [Function.update_same] at hj; exact nomatch hj
      · by_cases hil : l = i
        · subst hil; rw [Function.update_same] at hl; exact nomatch hl
        · rw [Function.update_noteq hij] at hj
          rw [Function.update_noteq hil] at hl
          exact h5 j l hj hl hk
  · have hload := h3 i hp
    refine ⟨fun k hk => ?_, fun k hk => ?_, fun j hj => ?_, fun j hj => ?_,
      fun j l hj hl hk => ?_⟩
    · by_cases hki : k = keys i
      · subst hki; rw [Function.update_same] at hk; exact nomatch hk
      · rw [Function.update_noteq hki] at hk
        exact h1 k hk
    · by_cases hki : k = keys i
      · subst hki
        exact h2 (keys i) (fun hcon => nomatch (hload.symm.trans hcon))
      · rw [Function.update_noteq hki] at hk
        exact h2 k hk
    · by_cases hij : j = i
      · subst hij; rw [Function.update_same] at hj; exact nomatch hj
      · rw [Function.update_noteq hij] at hj
        have hjl := h3 j hj
        by_cases hkj : keys j = keys i
        · exact absurd (h5 j i hj hp hkj) hij
        · rw [Function.update_noteq hkj]; exact hjl
    · by_cases hij : j = i
      · subst hij; rw [Function.update_same]
      · rw [Function.update_noteq hij] at hj
        have hjr := h4 j hj
        by_cases hkj : keys j = keys i
        · rw [hkj, Function.update_same]
        · rw [Function.update_noteq hkj]; exact hjr
    · by_cases hij : j = i
      · subst hij; rw [Function.update_same] at hj; exact nomatch hj
      · by_cases hil : l = i
        · subst hil; rw [Function.update_same] at hl; exact nomatch hl
        · rw [Function.update_noteq hij] at hj
          rw [Function.update_noteq hil] at hl
          exact h5 j l hj hl hk

theorem reach_inv {n : Nat} {keys : Fin n → RegKey} {s t : RegSys n}
    (hreach : Reach keys s t) (hinv : RegInv keys s) : RegInv keys t := by
  induction hreach with
  | refl => exact hinv
  | tail hr hs ih => exact step_inv hs ih

theorem step_frame {n : Nat} {keys : Fin n → RegKey} {i : Fin n} {s t : RegSys n}
    (hstep : Step keys i s t) :
    (∀ k, k ≠ keys i → t.est k = s.est k ∧ t.loads k = s.loads k) ∧
    (∀ j, j ≠ i → t.phase j = s.phase j) := by
  rcases hstep with ⟨hp, hr, ht⟩ | ⟨hp, hr, ht⟩ | ⟨hp, hr, ht⟩ | ⟨hp, hr, ht⟩ | ⟨hp, ht⟩ <;>
    subst ht <;> dsimp only <;>
    refine ⟨fun k hk => ⟨?_, ?_⟩, fun j hj => ?_⟩ <;>
    first
      | rfl
      | exact Function.update_noteq hk _ _
      | exact Function.update_noteq hj _ _

instance {ε α : Type} [DecidableEq ε] [DecidableEq α] : DecidableEq (Except ε α) := fun x y =>
  match x, y with
  | .ok a, .ok b =>
      if h : a = b then isTrue (by rw [h]) else isFalse (fun hc => h (Except.ok.inj hc))
  | .error e, .error f =>
      if h : e = f then isTrue (by rw [h]) else isFalse (fun hc => h (Except.error.inj hc))
  | .ok _, .error _ => isFalse (fun hc => nomatch hc)
  | .error _, .ok _ => isFalse (fun hc => nomatch hc)

/-!
Concrete instances used by the scenario conjuncts and the witnesses: a demo
bundle over features a and b whose scorer returns 0.82 on inputs with a ≤ 1
(spec section 8 scenarios).
-/

/-- Metadata of the demo bundle: two declared features. -/
def demoMeta : BundleMeta :=
  { features := [⟨"a", "Feature A", none⟩, ⟨"b", "Feature B", none⟩] }

/-- Scorer of the demo bundle: 0.82 on the original input, 0.3 once feature a
is raised above 1. -/
def demoScorer : FeatureVector → ℚ := fun fv =>
  match getFeature fv "a" with
  | some a => if a ≤ 1 then mkRat 41 50 else mkRat 3 10
  | none => mkRat 1 2

/-- The demo bundle; its threshold is the structure default. -/
def demoBundle : ArtifactBundle :=
  { domain := "demo", version := "v1", meta := demoMeta,
    scorer := demoScorer, explainer := fun _ => [] }

/-- The scenario input of spec section 8: a = 1, b = 1. -/
def demoInput : FeatureVector := [("a", 1), ("b", 1)]

/-- A modified input differing from demoInput on feature a. -/
def demoInput2 : FeatureVector := [("a", 2), ("b", 1)]

/-- An input missing required feature b. -/
def demoMissing : FeatureVector := [("a", 1)]

/-- The prediction the demo bundle produces on demoInput. -/
def demoResult : PredictionResult := (score demoBundle demoInput).toOption.getD default

/-- The comparison of demoInput against demoInput2. -/
def demoCmp : ComparisonResult :=
  (compare demoBundle demoInput demoInput2).toOption.getD default

/-- The comparison in the opposite direction. -/
def demoCmpRev : ComparisonResult :=
  (compare demoBundle demoInput2 demoInput).toOption.getD default

/-!
Characterisations of the confidence mapping.
-/

theorem confidenceLevel_LOW_iff (p : ℚ) :
    confidenceLevel p = .LOW ↔ |p - 1/2| ≤ 1/10 := by
  unfold confidenceLevel
  simp only [distHalf_eq, mkRat_tenth, mkRat_three_tenths]
  split_ifs with h1 h2
  · exact ⟨fun _ => h1, fun _ => rfl⟩
  · exact ⟨(fun hcon => nomatch hcon), fun hc => absurd hc h1⟩
  · exact ⟨(fun hcon => nomatch hcon), fun hc => absurd hc h1⟩

theorem confidenceLevel_HIGH_iff (p : ℚ) :
    confidenceLevel p = .HIGH ↔ 3/10 ≤ |p - 1/2| := by
  unfold confidenceLevel
  simp only [distHalf_eq, mkRat_tenth, mkRat_three_tenths]
  split_ifs with h1 h2
  · refine ⟨(fun hcon => nomatch hcon), fun hc => ?_⟩
    linarith
  · exact ⟨fun _ => h2, fun _ => rfl⟩
  · exact ⟨(fun hcon => nomatch hcon), fun hc => absurd hc h2⟩

theorem confidenceLevel_MEDIUM_iff (p : ℚ) :
    confidenceLevel p = .MEDIUM ↔ 1/10 < |p - 1/2| ∧ |p - 1/2| < 3/10 := by
  unfold confidenceLevel
  simp only [distHalf_eq, mkRat_tenth, mkRat_three_tenths]
  split_ifs with h1 h2
  · refine ⟨(fun hcon => nomatch hcon), fun hc => ?_⟩
    linarith [hc.1]
  · refine ⟨(fun hcon => nomatch hcon), fun hc => ?_⟩
    linarith [hc.2]
  · exact ⟨fun _ => ⟨not_le.mp h1, not_le.mp h2⟩, fun _ => rfl⟩

theorem confidenceLevel_symm (d : ℚ) :
    confidenceLevel (1/2 + d) = confidenceLevel (1/2 - d) := by
  unfold confidenceLevel
  simp only [distHalf_eq]
  have habs : |(1/2 + d : ℚ) - 1/2| = |(1/2 - d : ℚ) - 1/2| := by
    rw [show (1/2 + d : ℚ) - 1/2 = d by ring, show (1/2 - d : ℚ) - 1/2 = -d by ring, abs_neg]
  rw [habs]

/-!
Elimination helpers for successful score and compare calls.
-/

theorem score_ok_elim (b : ArtifactBundle) (fv : FeatureVector) (r : PredictionResult)
    (hok : score b fv = .ok r) :
    r = { prediction := if b.threshold ≤ b.scorer fv then 1 else 0,
          probability := b.scorer fv,
          confidence_level := confidenceLevel (b.scorer fv),
          top_factors := topFactors b fv } ∧ validate b.meta fv = none := by
  unfold score at hok
  cases hval : validate b.meta fv with
  | some e => rw [hval] at hok; exact nomatch hok
  | none => rw [hval] at hok; exact ⟨(Except.ok.inj hok).symm, rfl⟩

theorem compare_ok_elim (b : ArtifactBundle) (X Y : FeatureVector) (r : ComparisonResult)
    (hok : compare b X Y = .ok r) :
    ∃ r1 r2, score b X = .ok r1 ∧ score b Y = .ok r2 ∧
      r = { original := r1, modified := r2,
            probability_change := qsub r2.probability r1.probability,
            key_changes := (changedFeatures b.meta X Y).map (describeChange X Y) } ∧
      changedFeatures b.meta X Y ≠ [] := by
  by_cases hc : changedFeatures b.meta X Y = []
  · unfold compare at hok; rw [if_pos hc] at hok; exact nomatch hok
  · unfold compare at hok
    rw [if_neg hc] at hok
    cases hX : score b X with
    | error e => rw [hX] at hok; exact nomatch hok
    | ok r1 =>
      rw [hX] at hok
      cases hY : score b Y with
      | error e => rw [hY] at hok; exact nomatch hok
      | ok r2 =>
        rw [hY] at hok
        exact ⟨r1, r2, rfl, rfl, (Except.ok.inj hok).symm, hc⟩

theorem filter_map_eq_filterMap (X Y : FeatureVector) (l : List FeatureDecl) :
    (l.filter (featureChanged X Y)).map (describeChange X Y) =
      l.filterMap (fun d => if getFeature X d.name ≠ getFeature Y d.name
        then some (describeChange X Y d) else none) := by
  induction l with
  | nil => rfl
  | cons d ds ih =>
    by_cases hch : getFeature X d.name ≠ getFeature Y d.name
    · simp [List.filter_cons, List.filterMap_cons, featureChanged, hch, ih]
    · simp [List.filter_cons, List.filterMap_cons, featureChanged, hch, ih]

/-- C1: for every probability p in [0,1], confidence is LOW iff |p-0.5| ≤ 0.1,
HIGH iff |p-0.5| ≥ 0.3, MEDIUM otherwise; the boundary probabilities 0.4 and
0.6 map to LOW and 0.2 and 0.8 map to HIGH; and the mapping is symmetric on
both sides of 0.5. -/
theorem confidence_level_spec (p : ℚ) (hp0 : 0 ≤ p) (hp1 : p ≤ 1) :
    ((confidenceLevel p = .LOW ↔ |p - 1/2| ≤ 1/10) ∧
     (confidenceLevel p = .HIGH ↔ 3/10 ≤ |p - 1/2|) ∧
     (confidenceLevel p = .MEDIUM ↔ 1/10 < |p - 1/2| ∧ |p - 1/2| < 3/10)) ∧
    (confidenceLevel (2/5) = .LOW ∧ confidenceLevel (3/5) = .LOW ∧
     confidenceLevel (1/5) = .HIGH ∧ confidenceLevel (4/5) = .HIGH) ∧
    (∀ d : ℚ, confidenceLevel (1/2 + d) = confidenceLevel (1/2 - d)) := by
  refine ⟨⟨confidenceLevel_LOW_iff p, confidenceLevel_HIGH_iff p, confidenceLevel_MEDIUM_iff p⟩,
    ⟨?_, ?_, ?_, ?_⟩, confidenceLevel_symm⟩
  · refine (confidenceLevel_LOW_iff _).mpr ?_
    rw [abs_le]
    constructor <;> norm_num
  · refine (confidenceLevel_LOW_iff _).mpr ?_
    rw [abs_le]
    constructor <;> norm_num
  · refine (confidenceLevel_HIGH_iff _).mpr ?_
    rw [le_abs]
    right
    norm_num
  · refine (confidenceLevel_HIGH_iff _).mpr ?_
    rw [le_abs]
    left
    norm_num

/-- Witness for C1, instantiated at p = 0: the boundary probabilities behave
as claimed. -/
theorem confidence_level_spec_witness :
    confidenceLevel (2/5) = ConfLevel.LOW ∧ confidenceLevel (3/5) = ConfLevel.LOW ∧
    confidenceLevel (1/5) = ConfLevel.HIGH ∧ confidenceLevel (4/5) = ConfLevel.HIGH :=
  (confidence_level_spec 0 (le_refl 0) zero_le_one).2.1

/-- C2: score returns prediction 1 exactly when the probability reaches the
bundle threshold (a bundle-level configurable defaulting to 0.5), else 0; the
demo bundle with default threshold and scorer value 0.82 on input a=1,b=1
yields prediction 1 with confidence HIGH. -/
theorem score_threshold_rule (b : ArtifactBundle) (fv : FeatureVector)
    (r : PredictionResult) (hok : score b fv = .ok r) :
    r.probability = b.scorer fv ∧
    (r.prediction = 1 ↔ b.threshold ≤ r.probability) ∧
    (r.probability < b.threshold → r.prediction = 0) ∧
    (demoBundle.threshold = 1/2 ∧ demoResult.prediction = 1 ∧
     demoResult.confidence_level = .HIGH ∧ demoResult.probability = 41/50) := by
  obtain ⟨hr, hval⟩ := score_ok_elim b fv r hok
  subst hr
  refine ⟨rfl, ?_, ?_, mkRat_half, by decide, by decide, ?_⟩
  · dsimp only
    split_ifs with h
    · exact ⟨fun _ => h, fun _ => rfl⟩
    · exact ⟨(fun hc => absurd hc (by decide)), fun hc => absurd hc h⟩
  · intro hlt
    dsimp only at hlt ⊢
    rw [if_neg (not_le.mpr hlt)]
  · refine (by decide : demoResult.probability = mkRat 41 50).trans ?_
    rw [Rat.mkRat_eq_divInt, Rat.divInt_eq_div]
    norm_num

/-- Witness for C2: the demo bundle scenario. -/
theorem score_threshold_rule_witness :
    score demoBundle demoInput = Except.ok demoResult ∧ demoResult.prediction = 1 :=
  ⟨by decide, (score_threshold_rule demoBundle demoInput demoResult (by decide)).2.2.2.2.1⟩

/-- C3: compare fails with NoChangeError whenever the two vectors agree on
every declared feature, and succeeds only when they differ on at least one
declared feature. -/
theorem compare_no_change_rule (b : ArtifactBundle) (X Y : FeatureVector) :
    ((∀ d ∈ b.meta.features, getFeature X d.name = getFeature Y d.name) →
      compare b X Y = .error .noChange) ∧
    (∀ r, compare b X Y = .ok r →
      ∃ d ∈ b.meta.features, getFeature X d.name ≠ getFeature Y d.name) := by
  constructor
  · intro heq
    have hempty : changedFeatures b.meta X Y = [] := by
      refine List.filter_eq_nil.mpr ?_
      intro d hd
      simp [featureChanged, heq d hd]
    unfold compare
    rw [if_pos hempty]
  · intro r hok
    obtain ⟨_, _, _, _, _, hne⟩ := compare_ok_elim b X Y r hok
    obtain ⟨d, hd⟩ := List.exists_mem_of_ne_nil _ hne
    have hmem := List.mem_filter.mp hd
    exact ⟨d, hmem.1, of_decide_eq_true hmem.2⟩

/-- Witness for C3: the spec scenario, comparing a=1,b=1 against itself. -/
theorem compare_no_change_rule_witness :
    compare demoBundle demoInput demoInput = Except.error CompareError.noChange :=
  (compare_no_change_rule demoBundle demoInput demoInput).1 (fun d _ => rfl)

/-- C4: the probability change of a comparison is the signed difference of
the modified and original probabilities, and swapping the two vectors negates
it. -/
theorem compare_antisymm (b : ArtifactBundle) (X Y : FeatureVector)
    (r1 r2 : ComparisonResult) (h1 : compare b X Y = .ok r1)
    (h2 : compare b Y X = .ok r2) :
    r1.probability_change = r1.modified.probability - r1.original.probability ∧
    r1.probability_change = -r2.probability_change := by
  obtain ⟨a, c, hX, hY, hr1, _⟩ := compare_ok_elim b X Y r1 h1
  obtain ⟨c2, a2, hY2, hX2, hr2, _⟩ := compare_ok_elim b Y X r2 h2
  have hc2 : c2 = c := Except.ok.inj (hY2.symm.trans hY)
  have ha2 : a2 = a := Except.ok.inj (hX2.symm.trans hX)
  subst hc2 ha2 hr1 hr2
  constructor
  · dsimp only
    rw [qsub_eq]
  · dsimp only
    rw [qsub_eq, qsub_eq]
    ring

/-- Witness for C4: the demo comparison in both directions. -/
theorem compare_antisymm_witness :
    demoCmp.probability_change = -demoCmpRev.probability_change :=
  (compare_antisymm demoBundle demoInput demoInput2 demoCmp demoCmpRev
    (by decide) (by decide)).2

/-- C5: score fails with SchemaMismatch on any vector missing a declared
feature, and the result is the same for every scorer, so the bundle scorer is
never consulted. -/
theorem score_schema_mismatch_rule (b : ArtifactBundle) (fv : FeatureVector)
    (d : FeatureDecl) (hd : d ∈ b.meta.features) (hmiss : getFeature fv d.name = none) :
    score b fv = .error .schemaMismatch ∧
    ∀ f : FeatureVector → ℚ, score { b with scorer := f } fv = .error .schemaMismatch := by
  have hfind : (missingFeature b.meta fv).isSome = true := by
    unfold missingFeature
    rw [List.find?_isSome]
    exact ⟨d, hd, by rw [hmiss]; rfl⟩
  have hval : validate b.meta fv = some .schemaMismatch := by
    unfold validate
    cases hm : missingFeature b.meta fv with
    | none => rw [hm] at hfind; exact nomatch hfind
    | some e => rfl
  constructor
  · unfold score
    rw [hval]
  · intro f
    unfold score
    have hval2 : validate ({ b with scorer := f } : ArtifactBundle).meta fv =
        some .schemaMismatch := hval
    rw [hval2]

/-- Witness for C5: the demo bundle scored on a vector missing feature b. -/
theorem score_schema_mismatch_rule_witness :
    score demoBundle demoMissing = Except.error ScoreError.schemaMismatch :=
  (score_schema_mismatch_rule demoBundle demoMissing ⟨"b", "Feature B", none⟩
    (by decide) (by decide)).1

/-- C6: starting from an uncached key, any interleaving of concurrent
getBundle callers runs the underlying load at most once per key, every
completed caller observed exactly one load of a READY entry, and a step by a
caller of one key never touches the entry or load counter of another key. -/
theorem getBundle_single_flight {n : Nat} (keys : Fin n → RegKey) (s0 s : RegSys n)
    (hinit : RegInit s0) (hreach : Reach keys s0 s) :
    (∀ k, s.loads k ≤ 1) ∧
    (∀ i, s.phase i = .done → s.loads (keys i) = 1 ∧ s.est (keys i) = .ready) ∧
    (∀ (i : Fin n) (t u : RegSys n), Step keys i t u →
      ∀ k, k ≠ keys i → u.est k = t.est k ∧ u.loads k = t.loads k) := by
  obtain ⟨h1, h2, h3, h4, h5⟩ := reach_inv hreach (regInit_inv keys s0 hinit)
  refine ⟨fun k => ?_, fun i hi => ?_, fun i t u hstep k hk => (step_frame hstep).1 k hk⟩
  · by_cases hk : s.est k = .unloaded
    · rw [h1 k hk]
      exact Nat.zero_le 1
    · rw [h2 k hk]
  · have hr := h4 i hi
    exact ⟨h2 (keys i) (fun hcon => nomatch (hr.symm.trans hcon)), hr⟩

/-- Two concurrent callers of the same uncached key. -/
def regKeys : Fin 2 → RegKey := fun _ => ("diabetes", "v1")

/-- Initial registry state for the witness run. -/
def regS0 : RegSys 2 :=
  { est := fun _ => .unloaded, loads := fun _ => 0, phase := fun _ => .start }

/-- Caller 0 claims the unloaded entry and starts the single load. -/
def regS1 : RegSys 2 :=
  { est := Function.update regS0.est (regKeys 0) .loading,
    loads := Function.update regS0.loads (regKeys 0) (regS0.loads (regKeys 0) + 1),
    phase := Function.update regS0.phase 0 .owner }

/-- Caller 1 finds the entry LOADING and waits. -/
def regS2 : RegSys 2 := { regS1 with phase := Function.update regS1.phase 1 .waiting }

/-- Caller 0 completes the load; the entry becomes READY. -/
def regS3 : RegSys 2 :=
  { est := Function.update regS2.est (regKeys 0) .ready,
    loads := regS2.loads,
    phase := Function.update regS2.phase 0 .done }

/-- Caller 1 resumes on the READY entry. -/
def regS4 : RegSys 2 := { regS3 with phase := Function.update regS3.phase 1 .done }

/-- Witness for C6: a concrete interleaving of two callers on the same
uncached key ends with both done and exactly one load executed. -/
theorem getBundle_single_flight_witness :
    regS4.loads ("diabetes", "v1") = 1 ∧ regS4.phase 0 = Phase.done ∧
    regS4.phase 1 = Phase.done := by
  have hreach : Reach regKeys regS0 regS4 :=
    .tail (.tail (.tail (.tail (.refl regS0)
      (Or.inr (Or.inl ⟨rfl, rfl, rfl⟩)))
      (Or.inr (Or.inr (Or.inl ⟨by decide, by decide, rfl⟩))))
      (Or.inr (Or.inr (Or.inr (Or.inr ⟨by decide, rfl⟩)))))
      (Or.inr (Or.inr (Or.inr (Or.inl ⟨by decide, by decide, rfl⟩))))
  have h := getBundle_single_flight regKeys regS0 regS4
    ⟨fun _ => rfl, fun _ => rfl, fun _ => rfl⟩ hreach
  exact ⟨(h.2.1 0 (by decide)).1, by decide, by decide⟩

/-- C7: the key changes of a successful comparison are exactly one
human-readable string per declared feature on which the vectors differ, in
feature-declaration order, each built from the old and the new value. -/
theorem key_changes_spec (b : ArtifactBundle) (X Y : FeatureVector)
    (r : ComparisonResult) (hok : compare b X Y = .ok r) :
    r.key_changes = b.meta.features.filterMap (fun d =>
      if getFeature X d.name ≠ getFeature Y d.name
      then some (d.label ++ ": " ++ showOptVal (getFeature X d.name) ++ " -> "
        ++ showOptVal (getFeature Y d.name))
      else none) ∧
    r.key_changes.length = (changedFeatures b.meta X Y).length := by
  obtain ⟨r1, r2, hX, hY, hr, hne⟩ := compare_ok_elim b X Y r hok
  subst hr
  constructor
  · dsimp only
    unfold changedFeatures
    rw [filter_map_eq_filterMap]
    rfl
  · dsimp only
    rw [List.length_map]

/-- Witness for C7: the demo comparison changes exactly feature a. -/
theorem key_changes_spec_witness :
    demoCmp.key_changes = ["Feature A: 1 -> 2"] :=
  ((key_changes_spec demoBundle demoInput demoInput2 demoCmp (by decide)).1).trans (by decide)

/-- Concrete submitted payload used by the C8 counterexample. -/
def demoPayload : List (String × ℚ) := [("glucose", 120), ("bmi", mkRat 57 2)]

/-- Concrete prediction response used by the C8 counterexample. -/
def demoResp : PredictResponse := ⟨1, mkRat 41 50, "HIGH"⟩

/-- C8 counterexample: after one successful submission the frontend scoring
path has written the identifiable inputs and the prediction output into
localStorage, so the scoring path does persist data to durable storage. -/
theorem scoring_path_writes_storage :
    getItem (handleSubmitSuccess ⟨[], []⟩ 1700000000000 "2026-01-01T00:00:00Z"
      demoPayload demoResp).storage STORAGE_KEY =
      some [mkEntry 1700000000000 "2026-01-01T00:00:00Z" "diabetes" demoPayload 1
        (mkRat 41 50) "HIGH"] ∧
    demoPayload ≠ [] := by
  constructor
  · decide
  · decide

/-- C8 (amended): score itself is pure and threads any ambient state through
unchanged, but the frontend scoring path persists each successful
prediction's inputs and outputs at the front of the localStorage-backed
history, capped at MAX_HISTORY entries. -/
theorem score_pure_but_history_persists (st : HistoryState) (now : Nat) (ts : String)
    (payload : List (String × ℚ)) (resp : PredictResponse) :
    (∀ (σ : Type) (b : ArtifactBundle) (fv : FeatureVector) (s : σ),
      (scoreCall b fv s).2 = s) ∧
    (handleSubmitSuccess st now ts payload resp).storage =
      setItem st.storage STORAGE_KEY
        ((mkEntry now ts "diabetes" payload resp.prediction resp.probability
          resp.confidence_level :: st.history).take MAX_HISTORY) ∧
    (handleSubmitSuccess st now ts payload resp).history.head? =
      some (mkEntry now ts "diabetes" payload resp.prediction resp.probability
        resp.confidence_level) := by
  refine ⟨fun σ b fv s => rfl, rfl, ?_⟩
  show ((mkEntry now ts "diabetes" payload resp.prediction resp.probability
    resp.confidence_level :: st.history).take MAX_HISTORY).head? = _
  rw [show MAX_HISTORY = 49 + 1 from rfl, List.take_succ_cons]
  rfl

/-- C9: scoring twice with the same bundle and vector yields identical
results, and the ambient state is untouched in between, so no hidden mutable
state can influence the output. -/
theorem score_call_idempotent {σ : Type} (b : ArtifactBundle) (fv : FeatureVector)
    (s : σ) :
    (scoreCall b fv ((scoreCall b fv s).2)).1 = (scoreCall b fv s).1 ∧
    (scoreCall b fv s).2 = s :=
  ⟨rfl, rfl⟩

/-- C10: addToHistory keeps the stored history at no more than MAX_HISTORY
entries, places the new entry at the front, and drops only entries beyond the
cap from the tail. -/
theorem addToHistory_cap_invariant (st : HistoryState) (now : Nat) (ts : String)
    (disease : String) (inputs : List (String × ℚ)) (prediction : Nat)
    (probability : ℚ) (confLevel : String) :
    ((addToHistory st now ts disease inputs prediction probability confLevel).2.history).length
        ≤ MAX_HISTORY ∧
    (addToHistory st now ts disease inputs prediction probability confLevel).2.history =
      (mkEntry now ts disease inputs prediction probability confLevel :: st.history).take
        MAX_HISTORY ∧
    ((addToHistory st now ts disease inputs prediction probability confLevel).2.history).head? =
      some (mkEntry now ts disease inputs prediction probability confLevel) ∧
    ∃ rest, mkEntry now ts disease inputs prediction probability confLevel :: st.history =
      (addToHistory st now ts disease inputs prediction probability confLevel).2.history
        ++ rest := by
  refine ⟨?_, rfl, ?_, ?_⟩
  · show ((mkEntry now ts disease inputs prediction probability confLevel ::
      st.history).take MAX_HISTORY).length ≤ MAX_HISTORY
    rw [List.length_take]
    exact min_le_left _ _
  · show ((mkEntry now ts disease inputs prediction probability confLevel ::
      st.history).take MAX_HISTORY).head? = _
    rw [show MAX_HISTORY = 49 + 1 from rfl, List.take_succ_cons]
    rfl
  · exact ⟨_, (List.take_append_drop MAX_HISTORY _).symm⟩

end MediScreen
